import Mathlib

/-
Shallow embedding of the dispatch and backpressure engine of the
rust_logger_system repository (src/src/core/*.rs).

Modelling conventions:
- Rust `String` / `&str` becomes `List Char`; `str::replace` with a single
  character pattern becomes the recursive `replaceChar`.
- `u64` metric counters become `Nat` (the counters only ever increment by
  one per event, so 64-bit wraparound is unreachable in any real execution
  and is not modelled).
- `f64` sampling rates become `ℚ`; the source only compares rates and
  multiplies/divides them, never relies on rounding.
- Effectful inputs (clock, thread identity, the random draw, the measured
  throughput, lock availability, timed-send outcomes) are explicit
  parameters.
- Side effects other than state updates (sink `append` calls, stderr
  warnings, the overflow callback, queue insertions) are reified as a list
  of `Effect` values returned alongside the new state.
- The bounded crossbeam channel is a `Channel` value: a queue list, a
  capacity, and a `connected` flag (false once the receiver is gone).
-/

set_option maxRecDepth 4000

namespace RustLogger

/-- Severities, from `src/src/core/log_level.rs` (`LogLevel`, discriminants 0..5). -/
inductive LogLevel where
  | trace
  | debug
  | info
  | warn
  | error
  | fatal
deriving DecidableEq, Repr

/-- Discriminant of a severity, as assigned in `log_level.rs`. -/
def LogLevel.toNat : LogLevel → Nat
  | .trace => 0
  | .debug => 1
  | .info => 2
  | .warn => 3
  | .error => 4
  | .fatal => 5

instance : LT LogLevel := ⟨fun a b => a.toNat < b.toNat⟩

instance (a b : LogLevel) : Decidable (a < b) :=
  inferInstanceAs (Decidable (a.toNat < b.toNat))

/-- Overflow priorities, from `src/src/core/overflow_policy.rs` (`LogPriority`). -/
inductive LogPriority where
  | normal
  | high
  | critical
deriving DecidableEq, Repr

/-- Modelled from the spec: `LogLevel::priority` is invoked by `Logger::send_entry`
(`logger.rs:296`) and asserted in the repository tests (`logger.rs:972`), but its
definition is not under `src/`. The spec maps severities Trace, Debug, Info to
Normal priority, Warn to High, and Error, Fatal to Critical. -/
def LogLevel.priority : LogLevel → LogPriority
  | .trace => .normal
  | .debug => .normal
  | .info => .normal
  | .warn => .high
  | .error => .critical
  | .fatal => .critical

/-- Tagged context value, from `src/src/core/log_context.rs` (`FieldValue`). -/
inductive FieldValue where
  | string (s : List Char)
  | int (i : Int)
  | float (q : ℚ)
  | bool (b : Bool)
  | null
deriving DecidableEq

/-- Per-entry structured fields, from `src/src/core/log_context.rs` (`LogContext`). -/
structure LogContext where
  fields : List (List Char × FieldValue)
deriving DecidableEq

/-- One logged event, from `src/src/core/log_entry.rs` (`LogEntry`). -/
structure LogEntry where
  level : LogLevel
  message : List Char
  timestamp : Nat
  file : Option (List Char)
  line : Option Nat
  module_path : Option (List Char)
  thread_id : List Char
  thread_name : Option (List Char)
  context : Option LogContext
deriving DecidableEq

/-- `str::replace` with a single-character pattern: every occurrence of `c`
is replaced by `r`, all other characters kept. -/
def replaceChar : List Char → Char → List Char → List Char
  | [], _, _ => []
  | x :: xs, c, r =>
      if x = c then r ++ replaceChar xs c r else x :: replaceChar xs c r

/-- `LogEntry::sanitize_message` (`log_entry.rs:56`): replace newlines, carriage
returns and tabs by their two-character escapes, in three sequential passes. -/
def sanitize_message (message : List Char) : List Char :=
  replaceChar (replaceChar (replaceChar message '\n' ['\\', 'n']) '\r' ['\\', 'r'])
    '\t' ['\\', 't']

/-- `LogEntry::new` (`log_entry.rs:63`). The clock value and the thread identity
are effectful inputs of the constructor. -/
def LogEntry.new (level : LogLevel) (message : List Char) (now : Nat)
    (tid : List Char) (tname : Option (List Char)) : LogEntry :=
  { level := level
    message := sanitize_message message
    timestamp := now
    file := none
    line := none
    module_path := none
    thread_id := tid
    thread_name := tname
    context := none }

/-- Per-character escaping as the spec describes it: each of the three control
characters becomes backslash plus letter, every other character is kept. -/
def escapeControl (c : Char) : List Char :=
  if c = '\n' then ['\\', 'n']
  else if c = '\r' then ['\\', 'r']
  else if c = '\t' then ['\\', 't']
  else [c]

/-- A short message containing each control character once. -/
def demoMessage : List Char := ['a', '\n', 'b', '\r', 'c', '\t', 'd']

/-- Outcome of one guarded `appender.append` call as classified by
`Logger::process_sync` / `Logger::process_batch`: `Ok(Ok(()))`, `Ok(Err(e))`,
or a caught panic. -/
inductive AppendOutcome where
  | ok
  | err
  | panicked
deriving DecidableEq, Repr

/-- A registered sink, abstracted to the behaviour the dispatch engine can
observe: what each `append` call returns for a given entry, and what `flush`
returns (`none` is `Ok(())`, `some e` is `Err(e)` with error identity `e`). -/
structure Appender where
  appendResult : LogEntry → AppendOutcome
  flushErr : Option Nat

/-- The five logger counters, from `src/src/core/metrics.rs` (`LoggerMetrics`). -/
structure LoggerMetrics where
  dropped_count : Nat
  total_logged : Nat
  queue_full_events : Nat
  block_events : Nat
  critical_logs_preserved : Nat
deriving DecidableEq, Repr

/-- `LoggerMetrics::new`: all counters at zero. -/
def LoggerMetrics.new : LoggerMetrics := ⟨0, 0, 0, 0, 0⟩

/-- `LoggerMetrics::record_dropped`: like `fetch_add`, returns the previous
value together with the updated counters. -/
def LoggerMetrics.record_dropped (m : LoggerMetrics) : Nat × LoggerMetrics :=
  (m.dropped_count, { m with dropped_count := m.dropped_count + 1 })

/-- `LoggerMetrics::record_logged`. -/
def LoggerMetrics.record_logged (m : LoggerMetrics) : Nat × LoggerMetrics :=
  (m.total_logged, { m with total_logged := m.total_logged + 1 })

/-- `LoggerMetrics::record_queue_full`. -/
def LoggerMetrics.record_queue_full (m : LoggerMetrics) : Nat × LoggerMetrics :=
  (m.queue_full_events, { m with queue_full_events := m.queue_full_events + 1 })

/-- `LoggerMetrics::record_block`. -/
def LoggerMetrics.record_block (m : LoggerMetrics) : Nat × LoggerMetrics :=
  (m.block_events, { m with block_events := m.block_events + 1 })

/-- `LoggerMetrics::record_critical_preserved`. -/
def LoggerMetrics.record_critical_preserved (m : LoggerMetrics) : Nat × LoggerMetrics :=
  (m.critical_logs_preserved, { m with critical_logs_preserved := m.critical_logs_preserved + 1 })

/-- Sum of all five counters; every dispatch step increases it, which is how
"some metric counter changed" is detected. -/
def LoggerMetrics.total (m : LoggerMetrics) : Nat :=
  m.dropped_count + m.total_logged + m.queue_full_events + m.block_events +
    m.critical_logs_preserved

/-- Overflow policies, from `src/src/core/overflow_policy.rs` (`OverflowPolicy`).
The timeout duration is in milliseconds. -/
inductive OverflowPolicy where
  | dropNewest
  | dropOldest
  | block
  | blockWithTimeout (millis : Nat)
  | alertAndDrop
deriving DecidableEq, Repr

/-- Which of the two `eprintln!` warning texts of `Logger::alert_and_drop` fired:
the generic queue-full message, or the one noting the DropOldest fallback. -/
inductive WarningKind where
  | queueFullDrop
  | dropOldestFallback
deriving DecidableEq, Repr

/-- Observable side effects of a dispatch step, in program order. -/
inductive Effect where
  | appended (idx : Nat) (entry : LogEntry) (outcome : AppendOutcome)
  | enqueued (entry : LogEntry)
  | blockedSend (entry : LogEntry)
  | stderrWarning (kind : WarningKind)
  | overflowCallback (count : Nat)
deriving DecidableEq

/-- The bounded crossbeam channel seen from the sender side: the queued
entries, the capacity passed to `bounded`, and whether the receiver (the
async worker) is still alive. -/
structure Channel where
  queue : List LogEntry
  capacity : Nat
  connected : Bool
deriving DecidableEq

/-- The logger state, from `src/src/core/logger.rs` (`Logger`). `channel = none`
is synchronous mode (`sender: None`); `async_handle` records whether the worker
join handle is still held; `on_overflow` records whether a callback is set. -/
structure Logger where
  min_level : LogLevel
  appenders : List Appender
  channel : Option Channel
  async_handle : Bool
  metrics : LoggerMetrics
  overflow_policy : OverflowPolicy
  on_overflow : Bool

/-- Outcome of `sender.send_timeout` under `BlockWithTimeout`, an effectful
input (it depends on the worker's timing). -/
inductive SendTimeoutResult where
  | ok
  | timedOut
  | disconnected
deriving DecidableEq, Repr

/-- Environment inputs of one overflow-handling step: whether the non-blocking
`try_write` on the sink registry succeeds, and how a timed send resolves. -/
structure Oracle where
  tryLockOk : Bool
  sendTimeout : SendTimeoutResult

/-- The append loop shared by `Logger::process_sync` and `Logger::process_batch`:
append the entry to every sink in order (indices from `i`), each call guarded by
`catch_unwind`; returns the append effects and the accumulated `has_error` flag. -/
def appendAll (appenders : List Appender) (entry : LogEntry) (i : Nat) :
    List Effect × Bool :=
  match appenders with
  | [] => ([], false)
  | a :: rest =>
      let out := a.appendResult entry
      let r := appendAll rest entry (i + 1)
      (Effect.appended i entry out :: r.1,
        if out = AppendOutcome.ok then r.2 else true)

/-- `Logger::process_sync` (`logger.rs:227`): append to every sink with
per-sink fault isolation, then count the record as dropped if any sink failed,
otherwise as logged. Returns (new metrics, `has_error`, effects). -/
def process_sync (appenders : List Appender) (entry : LogEntry)
    (metrics : LoggerMetrics) : LoggerMetrics × Bool × List Effect :=
  let r := appendAll appenders entry 0
  let m1 := if r.2 then (metrics.record_dropped).2 else (metrics.record_logged).2
  (m1, r.2, r.1)

/-- The per-entry part of `Logger::process_batch` (`logger.rs:139`): each entry
of the batch is appended to every sink and counted exactly once. The trailing
per-batch sink flush only emits stderr diagnostics and touches no counter, so
it is not tracked. -/
def process_entries (appenders : List Appender) :
    List LogEntry → LoggerMetrics → LoggerMetrics × List Effect
  | [], m => (m, [])
  | e :: rest, m =>
      let r := appendAll appenders e 0
      let m1 := if r.2 then (m.record_dropped).2 else (m.record_logged).2
      let r2 := process_entries appenders rest m1
      (r2.1, r.1 ++ r2.2)

/-- `Logger::force_write_critical` (`logger.rs:371`): count the record as a
preserved critical log, then write it synchronously to all sinks. The
non-blocking `try_write` branch and the blocking fallback run the same
`process_sync`; which one is taken depends on the lock oracle. -/
def Logger.force_write_critical (st : Logger) (entry : LogEntry) (oracle : Oracle) :
    Logger × List Effect :=
  let m1 := (st.metrics.record_critical_preserved).2
  if oracle.tryLockOk then
    let r := process_sync st.appenders entry m1
    ({ st with metrics := r.1 }, r.2.2)
  else
    let r := process_sync st.appenders entry m1
    ({ st with metrics := r.1 }, r.2.2)

/-- `Logger::alert_and_drop` (`logger.rs:385`): count the drop; on the first
drop ever or when the new cumulative count is a multiple of 1000, emit the
stderr warning (distinguishing the DropOldest fallback) and invoke the
registered overflow callback, if any, with the cumulative count. -/
def Logger.alert_and_drop (st : Logger) (_entry : LogEntry)
    (is_drop_oldest_fallback : Bool) : Logger × List Effect :=
  let r := st.metrics.record_dropped
  let shouldAlert := r.1 = 0 ∨ (r.1 + 1) % 1000 = 0
  let effs :=
    if shouldAlert then
      Effect.stderrWarning
          (if is_drop_oldest_fallback then WarningKind.dropOldestFallback
           else WarningKind.queueFullDrop) ::
        (if st.on_overflow then [Effect.overflowCallback (r.1 + 1)] else [])
    else []
  ({ st with metrics := r.2 }, effs)

/-- `Logger::handle_overflow` (`logger.rs:316`): record the queue-full event;
critical records bypass the policy and are force-written; otherwise dispatch
on the configured policy. Under `Block` the blocking `send` is modelled as the
entry eventually joining the queue (its result is ignored by the source). -/
def Logger.handle_overflow (st : Logger) (entry : LogEntry)
    (priority : LogPriority) (oracle : Oracle) : Logger × List Effect :=
  let st0 : Logger := { st with metrics := (st.metrics.record_queue_full).2 }
  if priority = LogPriority.critical then
    st0.force_write_critical entry oracle
  else
    match st.overflow_policy with
    | .dropNewest => ({ st0 with metrics := (st0.metrics.record_dropped).2 }, [])
    | .dropOldest => st0.alert_and_drop entry true
    | .block =>
        let st1 : Logger := { st0 with metrics := (st0.metrics.record_block).2 }
        match st.channel with
        | some ch =>
            if ch.connected then
              ({ st1 with channel := some { ch with queue := ch.queue ++ [entry] } },
                [Effect.blockedSend entry])
            else (st1, [])
        | none => (st1, [])
    | .blockWithTimeout _ =>
        let st1 : Logger := { st0 with metrics := (st0.metrics.record_block).2 }
        match st.channel with
        | some ch =>
            match oracle.sendTimeout with
            | .ok =>
                ({ st1 with channel := some { ch with queue := ch.queue ++ [entry] } },
                  [Effect.blockedSend entry])
            | .timedOut => st1.alert_and_drop entry false
            | .disconnected => (st1, [])
        | none => (st1, [])
    | .alertAndDrop => st0.alert_and_drop entry false

/-- `Logger::send_entry` (`logger.rs:294`): in async mode, `try_send` the
entry — accepted when there is room, `Disconnected` (silently ignored) when
the receiver is gone, otherwise hand over to overflow handling with the
entry's priority. In sync mode, process synchronously. -/
def Logger.send_entry (st : Logger) (entry : LogEntry) (oracle : Oracle) :
    Logger × List Effect :=
  match st.channel with
  | some ch =>
      let priority := entry.level.priority
      if ch.connected = false then (st, [])
      else if ch.queue.length < ch.capacity then
        ({ st with channel := some { ch with queue := ch.queue ++ [entry] } },
          [Effect.enqueued entry])
      else st.handle_overflow entry priority oracle
  | none =>
      let r := process_sync st.appenders entry st.metrics
      ({ st with metrics := r.1 }, r.2.2)

/-- `Logger::log` (`logger.rs:284`): below the minimum level nothing happens;
otherwise build the entry and send it. -/
def Logger.log (st : Logger) (level : LogLevel) (message : List Char) (now : Nat)
    (tid : List Char) (tname : Option (List Char)) (oracle : Oracle) :
    Logger × List Effect :=
  if level < st.min_level then (st, [])
  else st.send_entry (LogEntry.new level message now tid tname) oracle

/-- The async worker draining the queue (`logger.rs:77`): when entries are
queued, they are processed as batches — per-entry sink fan-out plus one metric
update each. Batch splitting does not change appends or counters, so the whole
backlog is processed as one batch. -/
def Logger.drainQueue (st : Logger) : Logger × List Effect :=
  match st.channel with
  | some ch =>
      match ch.queue with
      | [] => (st, [])
      | q =>
          let r := process_entries st.appenders q st.metrics
          ({ st with metrics := r.1, channel := some { ch with queue := [] } }, r.2)
  | none => (st, [])

/-- One `log` call observed together with the worker's processing of whatever
that call enqueued. -/
def Logger.logAndDrain (st : Logger) (level : LogLevel) (message : List Char)
    (now : Nat) (tid : List Char) (tname : Option (List Char)) (oracle : Oracle) :
    Logger × List Effect :=
  let r1 := st.log level message now tid tname oracle
  let r2 := r1.1.drainQueue
  (r2.1, r1.2 ++ r2.2)

/-- `Logger::flush` (`logger.rs:462`): flush each sink in order with the `?`
operator. Returns the result together with how many sinks had `flush` invoked
on them. -/
def flushAppenders : List Appender → Except Nat Unit × Nat
  | [] => (Except.ok (), 0)
  | a :: rest =>
      match a.flushErr with
      | some e => (Except.error e, 1)
      | none =>
          let r := flushAppenders rest
          (r.1, r.2 + 1)

/-- `Logger::flush` on the logger's registered sinks. -/
def Logger.flush (st : Logger) : Except Nat Unit × Nat :=
  flushAppenders st.appenders

/-- Result of waiting for the async worker during `shutdown`: it finished and
joined cleanly, it panicked, or the timeout elapsed first. An effectful input
(real-time behaviour of the worker thread). -/
inductive WorkerWait where
  | finished
  | panicked
  | timedOut
deriving DecidableEq, Repr

/-- `Logger::shutdown` (`logger.rs:559`): drop the sender (closing the
channel), wait for the worker if a join handle is held (failing on panic or
timeout), then perform the final flush; the result is `true` only if that
flush succeeds. Returns the new state and the success flag. -/
def Logger.shutdown (st : Logger) (_timeoutMillis : Nat) (wait : WorkerWait) :
    Logger × Bool :=
  let st1 : Logger := { st with channel := none, async_handle := false }
  if st.async_handle then
    match wait with
    | .finished =>
        match (st1.flush).1 with
        | Except.ok _ => (st1, true)
        | Except.error _ => (st1, false)
    | .panicked => (st1, false)
    | .timedOut => (st1, false)
  else
    match (st1.flush).1 with
    | Except.ok _ => (st1, true)
    | Except.error _ => (st1, false)

/-- Sampling configuration, from `src/src/core/sampling.rs` (`SamplingConfig`).
The category-rate map is an association list with `HashMap::get` lookup. -/
structure SamplingConfig where
  rate : ℚ
  always_sample : List LogLevel
  category_rates : List (List Char × ℚ)
  adaptive : Bool
  adaptive_threshold : Nat
  adaptive_min_rate : ℚ

/-- Sampler counters, from `src/src/core/sampling.rs` (`SamplerMetrics`). -/
structure SamplerMetrics where
  sampled_count : Nat
  dropped_count : Nat
  total_count : Nat
deriving DecidableEq, Repr

/-- `SamplerMetrics::new`. -/
def SamplerMetrics.new : SamplerMetrics := ⟨0, 0, 0⟩

/-- `SamplerMetrics::record_sampled` (`sampling.rs:217`). -/
def SamplerMetrics.record_sampled (m : SamplerMetrics) : SamplerMetrics :=
  { m with sampled_count := m.sampled_count + 1, total_count := m.total_count + 1 }

/-- `SamplerMetrics::record_dropped` (`sampling.rs:224`). -/
def SamplerMetrics.record_dropped (m : SamplerMetrics) : SamplerMetrics :=
  { m with dropped_count := m.dropped_count + 1, total_count := m.total_count + 1 }

/-- `SamplerMetrics::effective_sample_rate` (`sampling.rs:232`): sampled over
total, 1 when nothing was processed yet. -/
def SamplerMetrics.effective_sample_rate (m : SamplerMetrics) : ℚ :=
  if (m.total_count : ℚ) = 0 then 1
  else (m.sampled_count : ℚ) / (m.total_count : ℚ)

/-- `LogSampler::get_effective_rate` (`sampling.rs:404`): a matching category
override wins; otherwise, with adaptive sampling enabled and the measured
throughput above the threshold, the base rate is scaled down proportionally
and clamped to the floor; otherwise the base rate. The measured throughput is
the value `record_and_get_rate` returns, an effectful input. -/
def get_effective_rate (cfg : SamplingConfig) (category : Option (List Char))
    (measured : ℚ) : ℚ :=
  let fallback :=
    if cfg.adaptive then
      if (cfg.adaptive_threshold : ℚ) < measured then
        max (cfg.rate * ((cfg.adaptive_threshold : ℚ) / measured)) cfg.adaptive_min_rate
      else cfg.rate
    else cfg.rate
  match category with
  | some cat =>
      match cfg.category_rates.lookup cat with
      | some r => r
      | none => fallback
  | none => fallback

/-- `LogSampler::should_sample` (`sampling.rs:369`): always-sample levels are
accepted before any rate is consulted; then the effective rate is applied with
the two fast paths, and otherwise one uniform draw decides. The draw is an
effectful input. Returns the decision and the updated sampler counters. -/
def should_sample (cfg : SamplingConfig) (level : LogLevel)
    (category : Option (List Char)) (measured : ℚ) (draw : ℚ)
    (m : SamplerMetrics) : Bool × SamplerMetrics :=
  if level ∈ cfg.always_sample then (true, m.record_sampled)
  else
    let rate := get_effective_rate cfg category measured
    if 1 ≤ rate then (true, m.record_sampled)
    else if rate ≤ 0 then (false, m.record_dropped)
    else if draw < rate then (true, m.record_sampled)
    else (false, m.record_dropped)

/-- One `should_sample` call's inputs, for reasoning about call sequences. -/
structure SampleCall where
  level : LogLevel
  category : Option (List Char)
  measured : ℚ
  draw : ℚ

/-- Fold a sequence of `should_sample` calls over the sampler counters. -/
def runCalls (cfg : SamplingConfig) : List SampleCall → SamplerMetrics → SamplerMetrics
  | [], m => m
  | c :: cs, m =>
      runCalls cfg cs (should_sample cfg c.level c.category c.measured c.draw m).2

/-- Rewrites the queue-full warning into the DropOldest-fallback warning and
leaves every other effect unchanged. -/
def swapWarning : Effect → Effect
  | .stderrWarning .queueFullDrop => .stderrWarning .dropOldestFallback
  | e => e

/-! Concrete states used to evaluate the development on explicit inputs. -/

/-- A sink whose `append` always succeeds and whose `flush` fails with error 7. -/
def errFlushAppender : Appender :=
  { appendResult := fun _ => AppendOutcome.ok, flushErr := some 7 }

/-- A sink whose `append` and `flush` always succeed. -/
def okAppender : Appender :=
  { appendResult := fun _ => AppendOutcome.ok, flushErr := none }

/-- Two sinks, the first with a failing `flush`. -/
def flushDemoAppenders : List Appender := [errFlushAppender, okAppender]

/-- A logger whose worker is already gone (sender and join handle taken by a
previous shutdown) and whose only sink fails on `flush`. -/
def staleLogger : Logger :=
  { min_level := LogLevel.info
    appenders := [errFlushAppender]
    channel := none
    async_handle := false
    metrics := LoggerMetrics.new
    overflow_policy := OverflowPolicy.alertAndDrop
    on_overflow := false }

/-- A logger whose worker is already gone and whose sink flushes cleanly. -/
def cleanLogger : Logger :=
  { min_level := LogLevel.info
    appenders := [okAppender]
    channel := none
    async_handle := false
    metrics := LoggerMetrics.new
    overflow_policy := OverflowPolicy.alertAndDrop
    on_overflow := false }

/-- A synchronous-mode logger with one healthy sink, minimum level Info. -/
def syncLogger : Logger :=
  { min_level := LogLevel.info
    appenders := [okAppender]
    channel := none
    async_handle := false
    metrics := LoggerMetrics.new
    overflow_policy := OverflowPolicy.alertAndDrop
    on_overflow := false }

/-- An async logger with a full zero-slack queue: one healthy sink, capacity 1,
one queued entry, callback registered, policy AlertAndDrop. -/
def fullQueueLogger : Logger :=
  { min_level := LogLevel.trace
    appenders := [okAppender]
    channel := some { queue := [LogEntry.new LogLevel.info ['q'] 0 ['t'] none]
                      capacity := 1
                      connected := true }
    async_handle := true
    metrics := LoggerMetrics.new
    overflow_policy := OverflowPolicy.alertAndDrop
    on_overflow := true }

/-- The full-queue logger with its channel disconnected (receiver gone). -/
def closedChannelLogger : Logger :=
  { fullQueueLogger with
      channel := some { queue := [], capacity := 1, connected := false } }

/-- A sample entry above any minimum level. -/
def demoErrorEntry : LogEntry := LogEntry.new LogLevel.error ['b', 'o', 'o', 'm'] 3 ['t'] none

/-- A sample low-severity entry. -/
def demoDebugEntry : LogEntry := LogEntry.new LogLevel.debug ['h', 'i'] 4 ['t'] none

/-- A fixed oracle: the non-blocking registry lock is available and timed
sends succeed. -/
def demoOracle : Oracle := { tryLockOk := true, sendTimeout := SendTimeoutResult.ok }

/-- The rational 1/2, given by an explicit reduced fraction. -/
def oneHalf : ℚ := ⟨1, 2, by decide, by decide⟩

/-- The rational 1/4, given by an explicit reduced fraction. -/
def oneQuarter : ℚ := ⟨1, 4, by decide, by decide⟩

/-- The rational 1/100, given by an explicit reduced fraction. -/
def oneHundredth : ℚ := ⟨1, 100, by decide, by decide⟩

/-- Sampling configuration with base rate 0 and the default always-sample set. -/
def zeroRateConfig : SamplingConfig :=
  { rate := 0
    always_sample := [LogLevel.error, LogLevel.fatal]
    category_rates := []
    adaptive := false
    adaptive_threshold := 10000
    adaptive_min_rate := oneHundredth }

/-- Sampling configuration with base rate 1/2 and an empty always-sample set. -/
def halfRateConfig : SamplingConfig :=
  { rate := oneHalf
    always_sample := []
    category_rates := []
    adaptive := false
    adaptive_threshold := 10000
    adaptive_min_rate := oneHundredth }

/-! Helper lemmas about message sanitization. -/

lemma replaceChar_append (a b : List Char) (c : Char) (r : List Char) :
    replaceChar (a ++ b) c r = replaceChar a c r ++ replaceChar b c r := by
  induction a with
  | nil => rfl
  | cons x xs ih =>
      by_cases h : x = c <;> simp [replaceChar, h, ih]

lemma sanitize_cons (x : Char) (xs : List Char) :
    sanitize_message (x :: xs) = escapeControl x ++ sanitize_message xs := by
  by_cases hn : x = '\n'
  · subst hn
    show replaceChar (replaceChar (['\\', 'n'] ++ replaceChar xs '\n' ['\\', 'n'])
        '\r' ['\\', 'r']) '\t' ['\\', 't'] = _
    rw [replaceChar_append, replaceChar_append]
    rfl
  by_cases hr : x = '\r'
  · subst hr
    show replaceChar (replaceChar (('\r' :: replaceChar xs '\n' ['\\', 'n']))
        '\r' ['\\', 'r']) '\t' ['\\', 't'] = _
    show replaceChar (['\\', 'r'] ++ replaceChar (replaceChar xs '\n' ['\\', 'n'])
        '\r' ['\\', 'r']) '\t' ['\\', 't'] = _
    rw [replaceChar_append]
    rfl
  by_cases ht : x = '\t'
  · subst ht
    show replaceChar (replaceChar (('\t' :: replaceChar xs '\n' ['\\', 'n']))
        '\r' ['\\', 'r']) '\t' ['\\', 't'] = _
    show replaceChar ('\t' :: replaceChar (replaceChar xs '\n' ['\\', 'n'])
        '\r' ['\\', 'r']) '\t' ['\\', 't'] = _
    show ['\\', 't'] ++ replaceChar (replaceChar (replaceChar xs '\n' ['\\', 'n'])
        '\r' ['\\', 'r']) '\t' ['\\', 't'] = _
    rfl
  · unfold sanitize_message escapeControl
    simp [replaceChar, hn, hr, ht]

lemma sanitize_eq_flatMap (m : List Char) :
    sanitize_message m = m.flatMap escapeControl := by
  induction m with
  | nil => rfl
  | cons x xs ih => rw [sanitize_cons, ih, List.flatMap_cons]

lemma control_not_mem_escapeControl (c : Char) :
    '\n' ∉ escapeControl c ∧ '\r' ∉ escapeControl c ∧ '\t' ∉ escapeControl c := by
  unfold escapeControl
  by_cases hn : c = '\n'
  · subst hn; refine ⟨?_, ?_, ?_⟩ <;> decide
  by_cases hr : c = '\r'
  · subst hr; refine ⟨?_, ?_, ?_⟩ <;> decide
  by_cases ht : c = '\t'
  · subst ht; refine ⟨?_, ?_, ?_⟩ <;> decide
  · rw [if_neg hn, if_neg hr, if_neg ht]
    refine ⟨?_, ?_, ?_⟩ <;> intro h
    · exact hn (List.mem_singleton.mp h).symm
    · exact hr (List.mem_singleton.mp h).symm
    · exact ht (List.mem_singleton.mp h).symm

/-- C4: the message stored by `LogEntry::new` is the input with every newline,
carriage return and tab replaced by its two-character escape and all other
characters unchanged, and it contains no raw newline, carriage return or tab. -/
theorem log_entry_message_sanitized (level : LogLevel) (msg : List Char) (now : Nat)
    (tid : List Char) (tname : Option (List Char)) :
    (LogEntry.new level msg now tid tname).message = msg.flatMap escapeControl
    ∧ '\n' ∉ (LogEntry.new level msg now tid tname).message
    ∧ '\r' ∉ (LogEntry.new level msg now tid tname).message
    ∧ '\t' ∉ (LogEntry.new level msg now tid tname).message := by
  have hm : (LogEntry.new level msg now tid tname).message = msg.flatMap escapeControl :=
    sanitize_eq_flatMap msg
  refine ⟨hm, ?_, ?_, ?_⟩ <;> rw [hm] <;> intro h
  · obtain ⟨a, _, hmem⟩ := List.mem_flatMap.mp h
    exact (control_not_mem_escapeControl a).1 hmem
  · obtain ⟨a, _, hmem⟩ := List.mem_flatMap.mp h
    exact (control_not_mem_escapeControl a).2.1 hmem
  · obtain ⟨a, _, hmem⟩ := List.mem_flatMap.mp h
    exact (control_not_mem_escapeControl a).2.2 hmem

/-- C4 witness: the sanitization theorem evaluated on a message holding each
control character once. -/
theorem log_entry_message_sanitized_witness :
    (LogEntry.new LogLevel.info demoMessage 0 ['t'] none).message
      = ['a', '\\', 'n', 'b', '\\', 'r', 'c', '\\', 't', 'd'] := by
  have h := (log_entry_message_sanitized LogLevel.info demoMessage 0 ['t'] none).1
  rw [h]
  rfl

/-! Helper lemmas about the logger metrics and the dispatch machinery. -/

lemma total_record_dropped (m : LoggerMetrics) :
    ((m.record_dropped).2).total = m.total + 1 := by
  simp only [LoggerMetrics.record_dropped, LoggerMetrics.total]
  omega

lemma total_record_logged (m : LoggerMetrics) :
    ((m.record_logged).2).total = m.total + 1 := by
  simp only [LoggerMetrics.record_logged, LoggerMetrics.total]
  omega

lemma total_record_queue_full (m : LoggerMetrics) :
    ((m.record_queue_full).2).total = m.total + 1 := by
  simp only [LoggerMetrics.record_queue_full, LoggerMetrics.total]
  omega

lemma total_record_block (m : LoggerMetrics) :
    ((m.record_block).2).total = m.total + 1 := by
  simp only [LoggerMetrics.record_block, LoggerMetrics.total]
  omega

lemma total_record_critical (m : LoggerMetrics) :
    ((m.record_critical_preserved).2).total = m.total + 1 := by
  simp only [LoggerMetrics.record_critical_preserved, LoggerMetrics.total]
  omega

lemma ne_of_total_lt {m1 m2 : LoggerMetrics} (h : m1.total < m2.total) : m2 ≠ m1 := by
  intro he
  rw [he] at h
  exact Nat.lt_irrefl _ h

lemma process_sync_total (as : List Appender) (e : LogEntry) (m : LoggerMetrics) :
    ((process_sync as e m).1).total = m.total + 1 := by
  simp only [process_sync]
  cases h : (appendAll as e 0).2
  · simp [h, total_record_logged]
  · simp [h, total_record_dropped]

lemma process_sync_preserved (as : List Appender) (e : LogEntry) (m : LoggerMetrics) :
    ((process_sync as e m).1).critical_logs_preserved = m.critical_logs_preserved := by
  simp only [process_sync]
  cases h : (appendAll as e 0).2 <;>
    simp [h, LoggerMetrics.record_dropped, LoggerMetrics.record_logged]

lemma process_entries_total (as : List Appender) (l : List LogEntry) (m : LoggerMetrics) :
    ((process_entries as l m).1).total = m.total + l.length := by
  induction l generalizing m with
  | nil => simp [process_entries]
  | cons e rest ih =>
      simp only [process_entries, List.length_cons]
      cases h : (appendAll as e 0).2
      · rw [if_neg (by simp)]
        rw [ih, total_record_logged]
        omega
      · rw [if_pos rfl]
        rw [ih, total_record_dropped]
        omega

lemma alert_and_drop_metrics (st : Logger) (e : LogEntry) (b : Bool) :
    ((st.alert_and_drop e b).1).metrics = (st.metrics.record_dropped).2 := rfl

lemma alert_and_drop_total (st : Logger) (e : LogEntry) (b : Bool) :
    ((st.alert_and_drop e b).1).metrics.total = st.metrics.total + 1 := by
  rw [alert_and_drop_metrics, total_record_dropped]

lemma force_write_metrics (st : Logger) (e : LogEntry) (o : Oracle) :
    ((st.force_write_critical e o).1).metrics
      = (process_sync st.appenders e ((st.metrics.record_critical_preserved).2)).1 := by
  unfold Logger.force_write_critical
  cases h : o.tryLockOk <;> simp [h]

lemma force_write_total (st : Logger) (e : LogEntry) (o : Oracle) :
    ((st.force_write_critical e o).1).metrics.total = st.metrics.total + 2 := by
  rw [force_write_metrics, process_sync_total, total_record_critical]

lemma handle_overflow_total_ge (st : Logger) (e : LogEntry) (p : LogPriority)
    (o : Oracle) :
    st.metrics.total + 1 ≤ ((st.handle_overflow e p o).1).metrics.total := by
  unfold Logger.handle_overflow
  by_cases hp : p = LogPriority.critical
  · rw [if_pos hp]
    rw [force_write_total]
    simp only [total_record_queue_full]
    omega
  · rw [if_neg hp]
    rcases hpol : st.overflow_policy with _ | _ | _ | d | _ <;> simp only [hpol]
    · simp only [total_record_dropped, total_record_queue_full]
      omega
    · rw [alert_and_drop_total, total_record_queue_full]
      omega
    · rcases hch : st.channel with _ | ch <;> simp only [hch]
      · simp only [total_record_block, total_record_queue_full]
        omega
      · cases hc : ch.connected <;>
          simp [hc, total_record_block, total_record_queue_full]
    · rcases hch : st.channel with _ | ch <;> simp only [hch]
      · simp only [total_record_block, total_record_queue_full]
        omega
      · rcases hst : o.sendTimeout with _ | _ | _ <;> simp only [hst]
        · simp [total_record_block, total_record_queue_full]
        · rw [alert_and_drop_total, total_record_block, total_record_queue_full]
          omega
        · simp [total_record_block, total_record_queue_full]
    · rw [alert_and_drop_total, total_record_queue_full]
      omega

lemma drainQueue_total_ge (st : Logger) :
    st.metrics.total ≤ ((st.drainQueue).1).metrics.total := by
  unfold Logger.drainQueue
  rcases hch : st.channel with _ | ch
  · simp
  · rcases hq : ch.queue with _ | ⟨e, rest⟩ <;> simp only [hq]
    · simp
    · rw [process_entries_total]
      omega

/-! Flush helper lemmas. -/

lemma flushAppenders_all_ok (as : List Appender) (h : ∀ a ∈ as, a.flushErr = none) :
    flushAppenders as = (Except.ok (), as.length) := by
  induction as with
  | nil => rfl
  | cons a rest ih =>
      have ha : a.flushErr = none := h a (List.mem_cons_self a rest)
      have hrest : ∀ b ∈ rest, b.flushErr = none := fun b hb => h b (List.mem_cons_of_mem a hb)
      simp [flushAppenders, ha, ih hrest]

lemma flushAppenders_first_err (pre : List Appender) (a : Appender)
    (post : List Appender) (e : Nat) (hpre : ∀ b ∈ pre, b.flushErr = none)
    (ha : a.flushErr = some e) :
    flushAppenders (pre ++ a :: post) = (Except.error e, pre.length + 1) := by
  induction pre with
  | nil => simp [flushAppenders, ha]
  | cons b bs ih =>
      have hb : b.flushErr = none := hpre b (List.mem_cons_self b bs)
      have hbs : ∀ x ∈ bs, x.flushErr = none := fun x hx => hpre x (List.mem_cons_of_mem b hx)
      simp [flushAppenders, hb, ih hbs]

/-- C2 counterexample: with two registered sinks whose first `flush` fails,
`Logger::flush` invokes `flush` on only one of the two sinks — the iteration
is short-circuited by the `?` operator, contrary to the claim. -/
theorem flush_not_best_effort :
    (flushAppenders flushDemoAppenders).2 ≠ flushDemoAppenders.length
    ∧ (flushAppenders flushDemoAppenders).2 = 1
    ∧ flushDemoAppenders.length = 2
    ∧ (flushAppenders flushDemoAppenders).1 = Except.error 7 := by
  refine ⟨by decide, rfl, rfl, rfl⟩

/-- C2 amended: `flush` stops at the first sink whose flush fails. It invokes
`flush` on each sink up to and including the first failing one and returns that
first error; when every sink's flush succeeds it invokes all of them and
returns `Ok(())`. -/
theorem flush_returns_first_error_short_circuit (as : List Appender) :
    ((∀ a ∈ as, a.flushErr = none) → flushAppenders as = (Except.ok (), as.length))
    ∧ (∀ pre a post e, as = pre ++ a :: post → (∀ b ∈ pre, b.flushErr = none) →
        a.flushErr = some e → flushAppenders as = (Except.error e, pre.length + 1)) := by
  refine ⟨fun h => flushAppenders_all_ok as h, ?_⟩
  intro pre a post e hsplit hpre ha
  rw [hsplit]
  exact flushAppenders_first_err pre a post e hpre ha

/-- C2 witness: the amended theorem evaluated on the two demo sinks. -/
theorem flush_short_circuit_witness :
    flushAppenders flushDemoAppenders = (Except.error 7, 1) :=
  (flush_returns_first_error_short_circuit flushDemoAppenders).2 [] errFlushAppender
    [okAppender] 7 rfl (by simp) rfl

/-- C8: when the queue offer finds the channel closed (receiver gone, shutdown
in progress), `send_entry` silently discards the record — the state, all five
metric counters included, is unchanged and there are no effects (no sink
append, no enqueue, no warning, no callback). -/
theorem closed_channel_silently_discards (st : Logger) (ch : Channel)
    (entry : LogEntry) (oracle : Oracle) (hch : st.channel = some ch)
    (hconn : ch.connected = false) :
    st.send_entry entry oracle = (st, ([] : List Effect))
    ∧ ((st.send_entry entry oracle).1).metrics = st.metrics := by
  have h : st.send_entry entry oracle = (st, ([] : List Effect)) := by
    simp [Logger.send_entry, hch, hconn]
  exact ⟨h, by rw [h]⟩

/-- C8 witness: the closed-channel logger discards a Debug record unchanged. -/
theorem closed_channel_witness :
    closedChannelLogger.send_entry demoDebugEntry demoOracle
      = (closedChannelLogger, ([] : List Effect)) :=
  (closed_channel_silently_discards closedChannelLogger
    { queue := [], capacity := 1, connected := false } demoDebugEntry demoOracle
    rfl rfl).1

/-- C9 counterexample: with the worker already gone but a sink whose `flush`
fails, `shutdown` returns `false`, not `true` — the final flush still runs and
its failure is propagated. -/
theorem shutdown_after_worker_gone_can_fail :
    (staleLogger.shutdown 5000 WorkerWait.finished).2 = false := rfl

/-- C9 amended: calling `shutdown(timeout)` after the sender and the worker
handle have been taken leaves the state unchanged, ignores the timeout and
the worker-wait outcome entirely, and returns `true` exactly when the final
flush of every registered sink succeeds. -/
theorem shutdown_after_worker_gone (st : Logger) (t t2 : Nat) (w w2 : WorkerWait)
    (hch : st.channel = none) (hh : st.async_handle = false) :
    (st.shutdown t w).1 = st
    ∧ ((st.shutdown t w).2 = true ↔ (flushAppenders st.appenders).1 = Except.ok ())
    ∧ st.shutdown t w = st.shutdown t2 w2 := by
  rcases st with ⟨ml, apps, chn, ah, ms, op, oo⟩
  obtain rfl : chn = none := hch
  obtain rfl : ah = false := hh
  refine ⟨?_, ?_, ?_⟩
  · unfold Logger.shutdown
    simp only [Bool.false_eq_true, if_false]
    cases hfl : (flushAppenders apps).1 <;> simp [Logger.flush, hfl]
  · unfold Logger.shutdown
    simp only [Bool.false_eq_true, if_false]
    cases hfl : (flushAppenders apps).1 <;> simp [Logger.flush, hfl]
  · rfl

/-- C9 witness: a second shutdown of the clean logger is a success and leaves
the logger unchanged, for two different timeouts and wait outcomes. -/
theorem shutdown_after_worker_gone_witness :
    (cleanLogger.shutdown 0 WorkerWait.finished).1 = cleanLogger
    ∧ ((cleanLogger.shutdown 0 WorkerWait.finished).2 = true
        ↔ (flushAppenders cleanLogger.appenders).1 = Except.ok ())
    ∧ cleanLogger.shutdown 0 WorkerWait.finished
        = cleanLogger.shutdown 9999 WorkerWait.timedOut :=
  shutdown_after_worker_gone cleanLogger 0 9999 WorkerWait.finished WorkerWait.timedOut
    rfl rfl

/-- C7: for a queue-full non-critical record, `DropOldest` handling is the
`AlertAndDrop` handling — same state change (metrics, channel, sinks; only the
configured-policy field keeps its own value) and the same effects except that
the stderr warning text is the one distinguishing the DropOldest fallback. -/
theorem dropOldest_equiv_alertAndDrop (st : Logger) (entry : LogEntry)
    (priority : LogPriority) (oracle : Oracle)
    (hpri : priority ≠ LogPriority.critical) :
    (Logger.handle_overflow { st with overflow_policy := OverflowPolicy.dropOldest }
        entry priority oracle).1
      = { (Logger.handle_overflow { st with overflow_policy := OverflowPolicy.alertAndDrop }
            entry priority oracle).1 with overflow_policy := OverflowPolicy.dropOldest }
    ∧ (Logger.handle_overflow { st with overflow_policy := OverflowPolicy.dropOldest }
        entry priority oracle).2
      = ((Logger.handle_overflow { st with overflow_policy := OverflowPolicy.alertAndDrop }
            entry priority oracle).2).map swapWarning := by
  rcases st with ⟨ml, apps, chn, ah, ms, op, oo⟩
  constructor
  · simp [Logger.handle_overflow, hpri, Logger.alert_and_drop]
  · simp only [Logger.handle_overflow, if_neg hpri, Logger.alert_and_drop]
    by_cases halert : ((ms.record_queue_full).2.record_dropped).1 = 0
        ∨ (((ms.record_queue_full).2.record_dropped).1 + 1) % 1000 = 0
    · rw [if_pos halert, if_pos halert]
      cases oo <;> simp [swapWarning]
    · rw [if_neg halert, if_neg halert]
      rfl

/-- C7 witness: the equivalence evaluated on the full-queue demo logger and a
Normal-priority record. -/
theorem dropOldest_equiv_witness :
    (Logger.handle_overflow { fullQueueLogger with overflow_policy := OverflowPolicy.dropOldest }
        demoDebugEntry LogPriority.normal demoOracle).1
      = { (Logger.handle_overflow { fullQueueLogger with overflow_policy := OverflowPolicy.alertAndDrop }
            demoDebugEntry LogPriority.normal demoOracle).1
          with overflow_policy := OverflowPolicy.dropOldest }
    ∧ (Logger.handle_overflow { fullQueueLogger with overflow_policy := OverflowPolicy.dropOldest }
        demoDebugEntry LogPriority.normal demoOracle).2
      = ((Logger.handle_overflow { fullQueueLogger with overflow_policy := OverflowPolicy.alertAndDrop }
            demoDebugEntry LogPriority.normal demoOracle).2).map swapWarning :=
  dropOldest_equiv_alertAndDrop fullQueueLogger demoDebugEntry LogPriority.normal
    demoOracle (by decide)

/-- C5: under `AlertAndDrop`, a queue-full non-critical record is discarded
(no sink append, no enqueue, no blocking send), the dropped counter goes up by
one, and the alert — stderr warning plus, when configured, the overflow
callback carrying the new cumulative drop count — fires exactly when that
count is 1 or a multiple of 1000. -/
theorem alertAndDrop_discards_and_throttles (st : Logger) (entry : LogEntry)
    (priority : LogPriority) (oracle : Oracle)
    (hpol : st.overflow_policy = OverflowPolicy.alertAndDrop)
    (hpri : priority ≠ LogPriority.critical) :
    ((st.handle_overflow entry priority oracle).1).metrics.dropped_count
        = st.metrics.dropped_count + 1
    ∧ (∀ i e o2, Effect.appended i e o2 ∉ (st.handle_overflow entry priority oracle).2)
    ∧ (∀ e, Effect.enqueued e ∉ (st.handle_overflow entry priority oracle).2)
    ∧ (∀ e, Effect.blockedSend e ∉ (st.handle_overflow entry priority oracle).2)
    ∧ ((∃ k, Effect.stderrWarning k ∈ (st.handle_overflow entry priority oracle).2)
        ↔ (st.metrics.dropped_count + 1 = 1
            ∨ (st.metrics.dropped_count + 1) % 1000 = 0))
    ∧ (st.on_overflow = true →
        ((Effect.overflowCallback (st.metrics.dropped_count + 1)
            ∈ (st.handle_overflow entry priority oracle).2)
          ↔ (st.metrics.dropped_count + 1 = 1
              ∨ (st.metrics.dropped_count + 1) % 1000 = 0)))
    ∧ (st.on_overflow = false →
        ∀ k, Effect.overflowCallback k ∉ (st.handle_overflow entry priority oracle).2)
    ∧ (∀ k, Effect.overflowCallback k ∈ (st.handle_overflow entry priority oracle).2
        → k = st.metrics.dropped_count + 1) := by
  have hstep : st.handle_overflow entry priority oracle
      = Logger.alert_and_drop { st with metrics := (st.metrics.record_queue_full).2 }
          entry false := by
    unfold Logger.handle_overflow
    rw [if_neg hpri, hpol]
  have hcond : (st.metrics.dropped_count = 0
        ∨ (st.metrics.dropped_count + 1) % 1000 = 0)
      ↔ (st.metrics.dropped_count + 1 = 1 ∨ (st.metrics.dropped_count + 1) % 1000 = 0) := by
    omega
  have hstate : (Logger.alert_and_drop
        { st with metrics := (st.metrics.record_queue_full).2 } entry false).1.metrics.dropped_count
      = st.metrics.dropped_count + 1 := rfl
  have heffs : (Logger.alert_and_drop
        { st with metrics := (st.metrics.record_queue_full).2 } entry false).2
      = if st.metrics.dropped_count = 0 ∨ (st.metrics.dropped_count + 1) % 1000 = 0 then
          Effect.stderrWarning WarningKind.queueFullDrop ::
            (if st.on_overflow then
              [Effect.overflowCallback (st.metrics.dropped_count + 1)] else [])
        else [] := rfl
  rw [hstep, hstate, heffs]
  by_cases halert : (st.metrics.dropped_count = 0
      ∨ (st.metrics.dropped_count + 1) % 1000 = 0)
  · rw [if_pos halert]
    cases hoo : st.on_overflow <;> simp_all
  · rw [if_neg halert]
    simp_all

/-- C5 witness: the first drop on the full-queue demo logger bumps the dropped
counter; its policy is AlertAndDrop. -/
theorem alertAndDrop_witness :
    fullQueueLogger.overflow_policy = OverflowPolicy.alertAndDrop
    ∧ ((fullQueueLogger.handle_overflow demoDebugEntry LogPriority.normal demoOracle).1).metrics.dropped_count
        = fullQueueLogger.metrics.dropped_count + 1 :=
  ⟨rfl, (alertAndDrop_discards_and_throttles fullQueueLogger demoDebugEntry
    LogPriority.normal demoOracle rfl (by decide)).1⟩

/-! Helper lemmas for the critical-record bypass. -/

lemma appendAll_mem (as : List Appender) (e : LogEntry) (i0 j : Nat) (a : Appender)
    (hj : as[j]? = some a) :
    Effect.appended (i0 + j) e (a.appendResult e) ∈ (appendAll as e i0).1 := by
  induction as generalizing i0 j with
  | nil => simp at hj
  | cons b rest ih =>
      cases j with
      | zero =>
          simp only [List.getElem?_cons_zero, Option.some.injEq] at hj
          subst hj
          simp [appendAll]
      | succ k =>
          have h2 := ih (i0 + 1) k (by simpa using hj)
          have hidx : i0 + (k + 1) = (i0 + 1) + k := by omega
          rw [hidx]
          simp only [appendAll]
          exact List.mem_cons_of_mem _ h2

lemma force_write_oracle_indep (st : Logger) (e : LogEntry) (o1 o2 : Oracle) :
    st.force_write_critical e o1 = st.force_write_critical e o2 := by
  unfold Logger.force_write_critical
  cases h1 : o1.tryLockOk <;> cases h2 : o2.tryLockOk <;> simp [h1, h2]

lemma force_write_effects (st : Logger) (e : LogEntry) (o : Oracle) :
    (st.force_write_critical e o).2 = (appendAll st.appenders e 0).1 := by
  unfold Logger.force_write_critical
  cases h : o.tryLockOk <;> simp [h, process_sync]

lemma force_write_policy_field (stx : Logger) (p : OverflowPolicy) (e : LogEntry)
    (o : Oracle) :
    Logger.force_write_critical { stx with overflow_policy := p } e o
      = ({ (stx.force_write_critical e o).1 with overflow_policy := p },
          (stx.force_write_critical e o).2) := by
  rcases stx with ⟨ml, apps, chn, ah, ms, op, oo⟩
  unfold Logger.force_write_critical
  cases h : o.tryLockOk <;> simp [h]

/-- C1: when the async queue offer finds the queue full and the record's
severity is Error or Fatal, the configured overflow policy is not applied (the
outcome is the same for every policy); the record is written synchronously to
every registered sink, whether or not the non-blocking registry lock is
available; and the critical-logs-preserved counter goes up by one. -/
theorem critical_bypasses_policy (st : Logger) (ch : Channel) (entry : LogEntry)
    (oracle : Oracle) (hch : st.channel = some ch) (hconn : ch.connected = true)
    (hfull : ch.capacity ≤ ch.queue.length)
    (hlv : entry.level = LogLevel.error ∨ entry.level = LogLevel.fatal) :
    (∀ p : OverflowPolicy,
        Logger.send_entry { st with overflow_policy := p } entry oracle
          = ({ (st.send_entry entry oracle).1 with overflow_policy := p },
              (st.send_entry entry oracle).2))
    ∧ (st.send_entry entry oracle).2 = (appendAll st.appenders entry 0).1
    ∧ (∀ i a, st.appenders[i]? = some a →
        Effect.appended i entry (a.appendResult entry) ∈ (st.send_entry entry oracle).2)
    ∧ ((st.send_entry entry oracle).1).metrics.critical_logs_preserved
        = st.metrics.critical_logs_preserved + 1
    ∧ (∀ b, st.send_entry entry { oracle with tryLockOk := b }
          = st.send_entry entry oracle) := by
  have hpri : entry.level.priority = LogPriority.critical := by
    rcases hlv with h | h <;> rw [h] <;> rfl
  have hnotlt : ¬(ch.queue.length < ch.capacity) := Nat.not_lt.mpr hfull
  have hsend : ∀ (st2 : Logger) (o2 : Oracle), st2.channel = some ch →
      Logger.send_entry st2 entry o2
        = Logger.force_write_critical
            { st2 with metrics := (st2.metrics.record_queue_full).2 } entry o2 := by
    intro st2 o2 hch2
    simp only [Logger.send_entry, hch2]
    rw [if_neg (by simp [hconn]), if_neg hnotlt]
    unfold Logger.handle_overflow
    rw [hpri, if_pos rfl, hch2]
  refine ⟨?_, ?_, ?_, ?_, ?_⟩
  · intro p
    rw [hsend { st with overflow_policy := p } oracle hch, hsend st oracle hch]
    exact force_write_policy_field { st with metrics := (st.metrics.record_queue_full).2 }
      p entry oracle
  · rw [hsend st oracle hch, force_write_effects]
  · intro i a hi
    rw [hsend st oracle hch, force_write_effects]
    have h2 := appendAll_mem st.appenders entry 0 i a hi
    simpa using h2
  · rw [hsend st oracle hch, force_write_metrics, process_sync_preserved]
    rfl
  · intro b
    rw [hsend st { oracle with tryLockOk := b } hch, hsend st oracle hch]
    exact force_write_oracle_indep _ entry _ _

/-- C1 witness: an Error record offered to the full-queue demo logger bumps the
critical-preserved counter and is appended to its (only) sink. -/
theorem critical_bypasses_policy_witness :
    ((fullQueueLogger.send_entry demoErrorEntry demoOracle).1).metrics.critical_logs_preserved
        = fullQueueLogger.metrics.critical_logs_preserved + 1
    ∧ Effect.appended 0 demoErrorEntry AppendOutcome.ok
        ∈ (fullQueueLogger.send_entry demoErrorEntry demoOracle).2 := by
  have h := critical_bypasses_policy fullQueueLogger
    { queue := [LogEntry.new LogLevel.info ['q'] 0 ['t'] none], capacity := 1, connected := true }
    demoErrorEntry demoOracle rfl rfl (by decide) (Or.inl rfl)
  exact ⟨h.2.2.2.1, h.2.2.1 0 okAppender rfl⟩

/-! Helper lemmas about the worker drain. -/

lemma drainQueue_none (st : Logger) (h : st.channel = none) :
    st.drainQueue = (st, ([] : List Effect)) := by
  unfold Logger.drainQueue
  simp [h]

lemma drainQueue_total (st : Logger) (ch : Channel) (hc : st.channel = some ch) :
    ((st.drainQueue).1).metrics.total = st.metrics.total + ch.queue.length := by
  unfold Logger.drainQueue
  simp only [hc]
  rcases hq : ch.queue with _ | ⟨e, rest⟩
  · simp
  · simp only [List.length_cons]
    rw [process_entries_total]
    simp

/-- C3: observing a `log` call together with the worker's processing of what
it enqueued (on a live logger: connected channel, no backlog), the call is a
no-op — all five metric counters unchanged and no sink receives an append —
exactly when the severity is strictly below the configured minimum level. -/
theorem log_noop_iff_below_min (st : Logger) (level : LogLevel) (msg : List Char)
    (now : Nat) (tid : List Char) (tname : Option (List Char)) (oracle : Oracle)
    (hready : ∀ ch, st.channel = some ch → ch.connected = true ∧ ch.queue = []) :
    (((st.logAndDrain level msg now tid tname oracle).1).metrics = st.metrics
      ∧ (∀ i e o, Effect.appended i e o
          ∉ (st.logAndDrain level msg now tid tname oracle).2))
    ↔ level < st.min_level := by
  constructor
  · intro hno
    by_contra hge
    have hld1 : (st.logAndDrain level msg now tid tname oracle).1
        = (st.send_entry (LogEntry.new level msg now tid tname) oracle).1.drainQueue.1 := by
      unfold Logger.logAndDrain Logger.log
      rw [if_neg hge]
    have hkey : st.metrics.total
        < ((st.logAndDrain level msg now tid tname oracle).1).metrics.total := by
      rw [hld1]
      rcases hc : st.channel with _ | ch
      · have hse1 : (st.send_entry (LogEntry.new level msg now tid tname) oracle).1
            = { st with metrics :=
                (process_sync st.appenders (LogEntry.new level msg now tid tname) st.metrics).1 } := by
          simp only [Logger.send_entry, hc]
        rw [hse1, drainQueue_none ({ st with metrics :=
            (process_sync st.appenders (LogEntry.new level msg now tid tname) st.metrics).1 }) hc]
        simp [process_sync_total]
      · obtain ⟨hct, hq⟩ := hready ch hc
        by_cases hcap : ch.queue.length < ch.capacity
        · have hse1 : (st.send_entry (LogEntry.new level msg now tid tname) oracle).1
              = { st with channel := some ({ ch with queue := ch.queue ++ [LogEntry.new level msg now tid tname] }) } := by
            simp only [Logger.send_entry, hc]
            rw [if_neg (by simp [hct]), if_pos hcap]
          rw [hse1]
          rw [drainQueue_total ({ st with channel := some ({ ch with queue := ch.queue ++ [LogEntry.new level msg now tid tname] }) }) ({ ch with queue := ch.queue ++ [LogEntry.new level msg now tid tname] }) rfl]
          simp [hq]
        · have hse1 : st.send_entry (LogEntry.new level msg now tid tname) oracle
              = st.handle_overflow (LogEntry.new level msg now tid tname)
                  (LogEntry.new level msg now tid tname).level.priority oracle := by
            simp only [Logger.send_entry, hc]
            rw [if_neg (by simp [hct]), if_neg hcap]
          rw [hse1]
          have h1 := handle_overflow_total_ge st (LogEntry.new level msg now tid tname)
            (LogEntry.new level msg now tid tname).level.priority oracle
          have h2 := drainQueue_total_ge
            (st.handle_overflow (LogEntry.new level msg now tid tname)
              (LogEntry.new level msg now tid tname).level.priority oracle).1
          omega
    exact ne_of_total_lt hkey hno.1
  · intro hlt
    have hlog : st.log level msg now tid tname oracle = (st, []) := by
      unfold Logger.log
      rw [if_pos hlt]
    have hdrain : st.drainQueue = (st, ([] : List Effect)) := by
      rcases hc : st.channel with _ | ch
      · exact drainQueue_none st hc
      · have hq := (hready ch hc).2
        unfold Logger.drainQueue
        simp [hc, hq]
    unfold Logger.logAndDrain
    rw [hlog]
    simp [hdrain]

/-- C3 witness: on the synchronous demo logger (minimum level Info), the iff
evaluated at severity Debug. -/
theorem log_noop_witness :
    (((syncLogger.logAndDrain LogLevel.debug ['x'] 0 ['t'] none demoOracle).1).metrics
        = syncLogger.metrics
      ∧ (∀ i e o, Effect.appended i e o
          ∉ (syncLogger.logAndDrain LogLevel.debug ['x'] 0 ['t'] none demoOracle).2))
    ↔ LogLevel.debug < syncLogger.min_level :=
  log_noop_iff_below_min syncLogger LogLevel.debug ['x'] 0 ['t'] none demoOracle
    (fun _ h => Option.noConfusion h)

/-! Sampler lemmas. -/

lemma should_sample_step (cfg : SamplingConfig) (level : LogLevel)
    (cat : Option (List Char)) (measured draw : ℚ) (m : SamplerMetrics) :
    (should_sample cfg level cat measured draw m).2
      = if (should_sample cfg level cat measured draw m).1 then m.record_sampled
        else m.record_dropped := by
  unfold should_sample
  by_cases hmem : level ∈ cfg.always_sample
  · simp [hmem]
  · simp only [if_neg hmem]
    by_cases h1 : 1 ≤ get_effective_rate cfg cat measured
    · simp [h1]
    · simp only [if_neg h1]
      by_cases h0 : get_effective_rate cfg cat measured ≤ 0
      · simp [h0]
      · simp only [if_neg h0]
        by_cases hd : draw < get_effective_rate cfg cat measured <;> simp [hd]

lemma runCalls_invariant (cfg : SamplingConfig) (calls : List SampleCall)
    (m : SamplerMetrics) (h : m.sampled_count + m.dropped_count = m.total_count) :
    (runCalls cfg calls m).sampled_count + (runCalls cfg calls m).dropped_count
      = (runCalls cfg calls m).total_count := by
  induction calls generalizing m with
  | nil => simpa [runCalls] using h
  | cons c cs ih =>
      simp only [runCalls]
      apply ih
      rw [should_sample_step]
      by_cases hres : (should_sample cfg c.level c.category c.measured c.draw m).1 <;>
        simp [hres, SamplerMetrics.record_sampled, SamplerMetrics.record_dropped] <;>
        omega

/-- C6: `should_sample` accepts every severity in the always-sample set no
matter the configured rate; otherwise, with effective rate r, it accepts when
r ≥ 1, rejects when r ≤ 0, and for 0 < r < 1 accepts exactly when the one
uniform draw is below r. -/
theorem should_sample_spec (cfg : SamplingConfig) (level : LogLevel)
    (cat : Option (List Char)) (measured draw : ℚ) (m : SamplerMetrics) :
    (level ∈ cfg.always_sample → (should_sample cfg level cat measured draw m).1 = true)
    ∧ (level ∉ cfg.always_sample →
        ((1 ≤ get_effective_rate cfg cat measured →
            (should_sample cfg level cat measured draw m).1 = true)
          ∧ (get_effective_rate cfg cat measured ≤ 0 →
            (should_sample cfg level cat measured draw m).1 = false)
          ∧ (0 < get_effective_rate cfg cat measured →
              get_effective_rate cfg cat measured < 1 →
              ((should_sample cfg level cat measured draw m).1 = true
                ↔ draw < get_effective_rate cfg cat measured)))) := by
  constructor
  · intro hmem
    simp [should_sample, hmem]
  · intro hmem
    refine ⟨?_, ?_, ?_⟩
    · intro h1
      simp [should_sample, hmem, h1]
    · intro h0
      have hn1 : ¬(1 ≤ get_effective_rate cfg cat measured) := by linarith
      simp [should_sample, hmem, hn1, h0]
    · intro hpos hlt1
      have hn1 : ¬(1 ≤ get_effective_rate cfg cat measured) := by linarith
      have hn0 : ¬(get_effective_rate cfg cat measured ≤ 0) := by linarith
      simp only [should_sample, if_neg hmem, if_neg hn1, if_neg hn0]
      by_cases hd : draw < get_effective_rate cfg cat measured <;> simp [hd]

/-- C6 witness: with base rate 0, an Error record is still accepted (it is in
the always-sample set); with base rate 1/2 and an empty always-sample set, an
Info record with draw 1/4 is accepted because 1/4 < 1/2. -/
theorem should_sample_witness :
    (should_sample zeroRateConfig LogLevel.error none 0 0 SamplerMetrics.new).1 = true
    ∧ ((should_sample halfRateConfig LogLevel.info none 0 oneQuarter SamplerMetrics.new).1 = true
        ↔ oneQuarter < get_effective_rate halfRateConfig none 0) :=
  ⟨(should_sample_spec zeroRateConfig LogLevel.error none 0 0 SamplerMetrics.new).1
      (by decide),
    ((should_sample_spec halfRateConfig LogLevel.info none 0 oneQuarter
        SamplerMetrics.new).2 (by decide)).2.2 (by decide) (by decide)⟩

/-- C10: every `should_sample` call increments `total_count` by one and exactly
one of `sampled_count` (on accept) or `dropped_count` (on reject); after any
sequence of calls from fresh counters, sampled plus dropped equals total; and
the effective sample rate is sampled over total, 1 when total is zero. -/
theorem sampler_counters_invariant (cfg : SamplingConfig) :
    (∀ (level : LogLevel) (cat : Option (List Char)) (measured draw : ℚ)
        (m : SamplerMetrics),
        ((should_sample cfg level cat measured draw m).2).total_count = m.total_count + 1
        ∧ ((should_sample cfg level cat measured draw m).2).sampled_count
            = m.sampled_count
              + (if (should_sample cfg level cat measured draw m).1 then 1 else 0)
        ∧ ((should_sample cfg level cat measured draw m).2).dropped_count
            = m.dropped_count
              + (if (should_sample cfg level cat measured draw m).1 then 0 else 1))
    ∧ (∀ calls : List SampleCall,
        (runCalls cfg calls SamplerMetrics.new).sampled_count
            + (runCalls cfg calls SamplerMetrics.new).dropped_count
          = (runCalls cfg calls SamplerMetrics.new).total_count)
    ∧ (∀ m : SamplerMetrics, m.effective_sample_rate
        = if m.total_count = 0 then 1
          else (m.sampled_count : ℚ) / (m.total_count : ℚ)) := by
  refine ⟨?_, ?_, ?_⟩
  · intro level cat measured draw m
    rw [should_sample_step]
    by_cases hres : (should_sample cfg level cat measured draw m).1 <;>
      simp [hres, SamplerMetrics.record_sampled, SamplerMetrics.record_dropped]
  · intro calls
    exact runCalls_invariant cfg calls SamplerMetrics.new rfl
  · intro m
    by_cases h : m.total_count = 0 <;> simp [SamplerMetrics.effective_sample_rate, h]

end RustLogger
